import Mathlib

/-!
# Revali — shallow embedding of the cache & revalidation engine

This file embeds the core of the Revali SWR caching engine in Lean 4 and
proves properties of the embedded definitions.

Conventions of the embedding:

* Keys are `String`, data values are abstracted as `Nat` (the engine is
  generic in `T` and never inspects values).
* `Date.now()` is an explicit integer parameter `now : Int`; a synchronous
  run of engine code sees a single instant, matching the engine's
  single-threaded, run-to-completion scheduling model.
* JavaScript `Map` objects are association lists in insertion order
  (`Map.set` on an existing key updates in place, otherwise appends;
  iteration is in insertion order).
* Thrown/rejected JavaScript values are `JsError`; `Except JsError` models
  fallible computation.
* Producer functions are identified by abstract ids (`FetcherRef`); their
  asynchronous outcomes are supplied as events/inputs, since the engine
  treats them as opaque.
* The polling module (`startPolling`/`stopPolling` side effects of
  `setCacheEntry`/`deleteCacheEntry`/`evictOldestEntry`) is outside the
  modelled fragment: no claim below concerns polling tasks, and polling
  never touches the cache map itself.
-/

namespace Revali

/-- JavaScript error values as classified by the engine: generic `Error`s
carrying a message, the engine's own `CancellationError`, and the platform
`DOMException` named `AbortError`. -/
inductive JsError where
  | generic (msg : String)
  | cancellation (msg : String)
  | abortError (msg : String)
  deriving DecidableEq, Repr

/-- Embedding of `isCancellationError` from `cancellation.ts`: `CancellationError`
instances and `DOMException`s named `AbortError` are cancellation-class. -/
def isCancellationError : JsError → Bool
  | .cancellation _ => true
  | .abortError _ => true
  | .generic _ => false

/-- Embedding of `createCancellationError` from `cancellation.ts`. -/
def createCancellationError (key : String) (originalError : Option JsError := none) : JsError :=
  .cancellation ("Request for \"" ++ key ++ "\" was cancelled" ++
    match originalError with
    | some (.generic m) => ": " ++ m
    | some (.cancellation m) => ": " ++ m
    | some (.abortError m) => ": " ++ m
    | none => "")

/-- Embedding of `RevaliOptions` from `types.ts` (the fields read by the modelled code
paths; `none` is an absent field).  The boolean revalidate-on-focus /
reconnect / refresh-when-* flags are consumed only by the polling and
auto-revalidation modules, which are outside the modelled fragment. -/
structure RevaliOptions where
  retries : Option Nat := none
  retryDelay : Option Nat := none
  ttl : Option Nat := none
  maxCacheSize : Option Nat := none
  refreshInterval : Option Nat := none
  abortOnRevalidate : Option Bool := none
  abortTimeout : Option Nat := none
  deriving DecidableEq, Repr

/-- Embedding of `DEFAULT_OPTIONS` from `types.ts`. -/
def DEFAULT_OPTIONS : RevaliOptions :=
  { retries := some 2
    retryDelay := some 300
    ttl := some (5 * 60 * 1000)
    maxCacheSize := some 100
    refreshInterval := some 0
    abortOnRevalidate := some false
    abortTimeout := some 0 }

/-- Spread merge `\x7b ...DEFAULT_OPTIONS, ...options \x7d`, read field-wise:
an absent field falls back to the default. -/
def optRetries (o : RevaliOptions) : Nat := o.retries.getD 2
def optRetryDelay (o : RevaliOptions) : Nat := o.retryDelay.getD 300
def optTtl (o : RevaliOptions) : Nat := o.ttl.getD (5 * 60 * 1000)
def optMaxCacheSize (o : RevaliOptions) : Nat := o.maxCacheSize.getD 100
def optAbortOnRevalidate (o : RevaliOptions) : Bool := o.abortOnRevalidate.getD false

/-- The fully populated result of the spread merge, as passed along by
`revaliFetch` to `fetchWithDedup`. -/
def mergeOptions (o : RevaliOptions) : RevaliOptions :=
  { retries := some (optRetries o)
    retryDelay := some (optRetryDelay o)
    ttl := some (optTtl o)
    maxCacheSize := some (optMaxCacheSize o)
    refreshInterval := some (o.refreshInterval.getD 0)
    abortOnRevalidate := some (optAbortOnRevalidate o)
    abortTimeout := some (o.abortTimeout.getD 0) }

/-- A producer function, by reference: either a caller-supplied fetcher
(identified by an id) or the constant fetcher `() => Promise.resolve(v)`
that `mutate` installs for newly created entries. -/
inductive FetcherRef where
  | user (id : Nat)
  | const (v : Nat)
  deriving DecidableEq, Repr

/-- Embedding of `CacheEntry` from `types.ts`.  `options` is stored exactly as passed
(the engine stores the raw `options` argument, not the merged copy). -/
structure CacheEntry where
  data : Option Nat
  timestamp : Int
  error : Option JsError := none
  fetcher : FetcherRef
  options : RevaliOptions
  deriving DecidableEq, Repr

/-- The global cache `Map`, in insertion order. -/
abbrev Store := List (String × CacheEntry)

/-- Embedding of `getCacheEntry`: `cache.get(key)` (first — and by uniqueness only —
binding for the key). -/
def getCacheEntry : Store → String → Option CacheEntry
  | [], _ => none
  | (k', e) :: rest, k => if k' = k then some e else getCacheEntry rest k

/-- Embedding of `setCacheEntry`: `cache.set(key, entry)` — update in place if the key is
present, otherwise append.  (The polling trigger on `refreshInterval > 0`
is outside the modelled fragment.) -/
def setCacheEntry : Store → String → CacheEntry → Store
  | [], k, e => [(k, e)]
  | (k', e') :: rest, k, e =>
    if k' = k then (k, e) :: rest else (k', e') :: setCacheEntry rest k e

/-- Embedding of `cache.delete(key)`. -/
def deleteCacheEntry : Store → String → Store
  | [], _ => []
  | (k', e') :: rest, k =>
    if k' = k then rest else (k', e') :: deleteCacheEntry rest k

/-- Embedding of `cache.size`. -/
def storeSize (s : Store) : Nat := s.length

/-- Embedding of `isExpired` from `cache.ts`: `ttl === 0` means never expired, otherwise
`Date.now() - entry.timestamp > entry.options.ttl`.  An absent `ttl` makes
the comparison `... > undefined`, which is false in JavaScript. -/
def isExpired (now : Int) (e : CacheEntry) : Bool :=
  match e.options.ttl with
  | some 0 => false
  | some t => now - e.timestamp > (t : Int)
  | none => false

/-- The scan of `evictOldestEntry`: fold over the entries in iteration
order, tracking `(oldestKey, oldestTimestamp)` with initial state
`(null, Date.now())` and a strict `<` comparison. -/
def findOldestKey (now : Int) (s : Store) : Option String :=
  (s.foldl
    (fun acc p => if p.2.timestamp < acc.2 then (some p.1, p.2.timestamp) else acc)
    ((none : Option String), now)).1

/-- Embedding of `evictOldestEntry` from `cache.ts`: delete the key found by the scan,
if any.  (`stopPolling` on the evicted key is outside the modelled
fragment.) -/
def evictOldestEntry (now : Int) (s : Store) : Store :=
  match findOldestKey now s with
  | some k => deleteCacheEntry s k
  | none => s

/-- Embedding of `ensureCacheSize` from `cache.ts`: `while (cache.size > maxSize)
evictOldestEntry()`.  The loop has no termination measure in the source, so
it is embedded with explicit fuel: `none` means the loop condition was
still true after `fuel` iterations.  A productive iteration removes exactly
one entry, so any terminating run of the source loop is reproduced by
`fuel = storeSize s`. -/
def ensureCacheSizeFuel (fuel : Nat) (now : Int) (maxSize : Nat) (s : Store) : Option Store :=
  match fuel with
  | 0 => if storeSize s ≤ maxSize then some s else none
  | fuel' + 1 =>
    if storeSize s ≤ maxSize then some s
    else ensureCacheSizeFuel fuel' now maxSize (evictOldestEntry now s)

/-- The `ensureCacheSize` call as used on the coordinator's write paths, with the
sufficient fuel `storeSize s`; if the loop diverges at the given instant
(possible, see the eviction theorems below) the stuck store is returned. -/
def ensureCacheSize (now : Int) (maxSize : Nat) (s : Store) : Store :=
  (ensureCacheSizeFuel (storeSize s) now maxSize s).getD s

/-- A concrete store entry written at the instant `100` (i.e. at
`Date.now()` of the call that stores it). -/
def freshEntry : CacheEntry :=
  { data := some 1, timestamp := 100, fetcher := .user 0, options := DEFAULT_OPTIONS }

/-- A concrete entry with `ttl = 7` written at `t0 = 0`. -/
def ttl7Entry : CacheEntry :=
  { data := some 1, timestamp := 0, fetcher := .user 0,
    options := { ttl := some 7 } }

-- The mutation API (`mutate.ts`) ------------------------------------------

/-- One `notify(key, error?)` call: the key, the data the notified entry
held at that moment (`entry?.data`), and the `error` argument.  Subscriber
callbacks are driven exclusively by these calls, so an empty log for a key
means no subscriber for that key was invoked. -/
abbrev NotifyLog := List (String × Option Nat × Option JsError)

/-- The second argument of `mutate`: a plain value, or an updater function
of the previous value.  An updater that throws is an updater returning
`Except.error`. -/
inductive MutateArg where
  | value (v : Nat)
  | updater (f : Option Nat → Except JsError Nat)

/-- The selection `typeof data === 'function' ? data(prevData) : data` (line 21 of
`mutate.ts`). -/
def applyMutateArg (arg : MutateArg) (prevData : Option Nat) : Except JsError Nat :=
  match arg with
  | .value v => .ok v
  | .updater f => f prevData

/-- The outcome of a `mutate` call: the synchronous result (the new value,
or the exception propagated from the updater), the cache afterwards, the
`notify` calls made, and the background revalidation task scheduled via
`setTimeout(..., 0)`, if any. -/
structure MutateResult where
  result : Except JsError Nat
  store : Store
  notes : NotifyLog
  scheduled : Option (String × FetcherRef × RevaliOptions)

/-- Embedding of `mutate` from `mutate.ts`, faithful to the statement order:
read the entry and its data, apply the updater (an exception propagates
with nothing else having happened), then update the existing entry in
place (`data`, `timestamp`, clear `error`) or create a new entry with
`DEFAULT_OPTIONS` and the constant fetcher, then `notify(key)`, then —
only if an entry existed before the call (`entry?.fetcher`) and
`shouldRevalidate` — schedule `fetchWithDedup(key, entry.fetcher,
entry.options)` in the background. -/
def mutate (now : Int) (s : Store) (key : String) (arg : MutateArg)
    (shouldRevalidate : Bool := true) : MutateResult :=
  let entry := getCacheEntry s key
  let prevData := entry.bind (·.data)
  match applyMutateArg arg prevData with
  | .error e => { result := .error e, store := s, notes := [], scheduled := none }
  | .ok newData =>
    let s' : Store :=
      match entry with
      | some en =>
        setCacheEntry s key { en with data := some newData, timestamp := now, error := none }
      | none =>
        setCacheEntry s key
          { data := some newData, timestamp := now, error := none,
            fetcher := .const newData, options := DEFAULT_OPTIONS }
    -- notify(key): reads the (just updated) entry, error argument undefined
    let notes : NotifyLog := [(key, (getCacheEntry s' key).bind (·.data), none)]
    let scheduled :=
      match shouldRevalidate, entry with
      | true, some en => some (key, en.fetcher, en.options)
      | _, _ => none
    { result := .ok newData, store := s', notes := notes, scheduled := scheduled }

-- The retry loop of `fetchWithDedup` --------------------------------------

/-- A run of the retry loop: how many times the producer was invoked, the
backoff delays awaited between consecutive attempts (in order, in ms), and
the value the inner async function settles with. -/
structure RetryRun where
  invocations : Nat
  delays : List Nat
  outcome : Except JsError Nat
  deriving Repr

/-- The retry loop of `fetchWithDedup` (`fetcher.ts`), as a pure function:
`producer i` is the settlement of the producer's `i`-th invocation (0-based).
`attempt` is the loop counter, `remaining = retries - attempt` the attempts
left.  Loop body, in source order: invoke the producer; on success return;
on a cancellation-class rejection rethrow `createCancellationError` (no
retry); otherwise hold the error as `lastError`, and if `attempt ≥ retries`
rethrow it, else increment `attempt` and wait
`retryDelay * 2 ^ (attempt - 1)` ms (the new, 1-indexed, value of
`attempt`) before the next iteration.  This pure model covers runs in which
the combined abort signal never fires (the initial `aborted` check is false
and the backoff waits complete); abort interleavings are treated by the
coordinator machine below. -/
def retryLoopAux (key : String) (producer : Nat → Except JsError Nat)
    (retryDelay : Nat) (attempt : Nat) (remaining : Nat) : RetryRun :=
  match producer attempt with
  | .ok v => { invocations := 1, delays := [], outcome := .ok v }
  | .error e =>
    if isCancellationError e then
      { invocations := 1, delays := [],
        outcome := .error (createCancellationError key (some e)) }
    else
      match remaining with
      | 0 => { invocations := 1, delays := [], outcome := .error e }
      | r + 1 =>
        let rest := retryLoopAux key producer retryDelay (attempt + 1) r
        { invocations := rest.invocations + 1,
          delays := (retryDelay * 2 ^ attempt) :: rest.delays,
          outcome := rest.outcome }

/-- The whole loop: `attempt` starts at 0 and the loop runs while
`attempt ≤ retries`. -/
def retryLoop (key : String) (producer : Nat → Except JsError Nat)
    (retries retryDelay : Nat) : RetryRun :=
  retryLoopAux key producer retryDelay 0 retries

/-- The producer of end-to-end scenario C: fails twice, then succeeds. -/
def scenarioCProducer : Nat → Except JsError Nat :=
  fun i => if i < 2 then .error (.generic ("fail " ++ toString i)) else .ok 42

-- The fetch coordinator as a transition system ------------------------------

/-!
`fetchWithDedup` (`fetcher.ts`) interleaves with other calls only at its
suspension points (`await fetcher(...)`, the backoff wait and the
settlement of the inner async function).  The code between two suspension
points runs to completion, so the coordinator is embedded as a transition
system: each event is one such atomic stretch.  The producer's settlements
are event inputs (the engine treats producers as opaque).  The timeout
signal (`abortTimeout > 0`) and the caller-supplied external signal are
additional abort sources feeding the same combined signal; in the model an
aborted combined signal is the request's `cancelled` flag, and a producer
settlement caused by an abort arrives as a cancellation-class rejection.
-/

/-- Where a request's inner async function currently is. -/
inductive ReqPhase where
  | calling        -- a producer invocation is awaited and not yet settled
  | backoff        -- the abortable backoff delay is awaited
  | cancelPending  -- the backoff wait was aborted; the rejection
                   -- continuation (outer catch/finally) has not yet run
  | done           -- settled: the outer catch/finally have run
  deriving DecidableEq, Repr

/-- One `fetchWithDedup` call that reached the create path (one inner async
function, one `AbortController`).  `opts` is the raw options argument: the
source stores it, unmerged, into cache entries. -/
structure Request where
  key : String
  fetcher : FetcherRef
  opts : RevaliOptions
  attempt : Nat
  cancelled : Bool
  phase : ReqPhase
  deriving DecidableEq, Repr

/-- The coordinator's global state, plus observation logs.  `reqs` is
indexed by creation order (a request's id is its index);
`inflight` is the `inflightRequests` map (key to the id of the registered
request's promise), `controllers` the cancellation manager's map.
Observations: `notes` the `notify` calls, `invocations` the number of
producer invocations made, `returns` the promise id each `fetchWithDedup`
call handed to its caller, `settlements` the final outcome of each settled
request's promise (what the caller awaits), `delays` the backoff waits
entered (ms). -/
structure CoordState where
  reqs : List Request
  inflight : List (String × Nat)
  controllers : List (String × Nat)
  store : Store
  notes : NotifyLog
  invocations : Nat
  returns : List Nat
  settlements : List (Nat × Except JsError Nat)
  delays : List Nat
  deriving Repr

/-- Embedding of `map.get(k)` on a JavaScript `Map` modelled in insertion order. -/
def lookupA {β : Type} : List (String × β) → String → Option β
  | [], _ => none
  | (k', v) :: rest, k => if k' = k then some v else lookupA rest k

/-- Embedding of `map.set(k, v)`: update in place, or append. -/
def setA {β : Type} : List (String × β) → String → β → List (String × β)
  | [], k, v => [(k, v)]
  | (k', v') :: rest, k, v =>
    if k' = k then (k, v) :: rest else (k', v') :: setA rest k v

/-- Embedding of `map.delete(k)`. -/
def eraseA {β : Type} : List (String × β) → String → List (String × β)
  | [], _ => []
  | (k', v') :: rest, k => if k' = k then rest else (k', v') :: eraseA rest k

/-- Embedding of `cancellationManager.cancel(key)` (`cancellation.ts`): abort the
registered, not-yet-aborted controller for the key, if any, and drop it
from the manager's map.  Aborting dispatches the `'abort'` event
synchronously; for a request awaiting its backoff delay the listener
rejects the delay promise at once, so its phase becomes `cancelPending`
(the rejection continuation runs as a later event).  A request awaiting
its producer merely has its signal flagged: the outcome is decided when
the producer settles. -/
def mgrCancel (s : CoordState) (k : String) : CoordState :=
  match lookupA s.controllers k with
  | none => s
  | some rid =>
    match s.reqs.get? rid with
    | none => s
    | some r =>
      if r.cancelled then s
      else
        { s with
          reqs := s.reqs.set rid
            { r with cancelled := true,
                     phase := if r.phase = .backoff then .cancelPending else r.phase },
          controllers := eraseA s.controllers k }

/-- The synchronous part of one `fetchWithDedup` call (`fetcher.ts`): the
supersession branch, the dedup join, or the create path — merge options,
cancel-and-replace the controller, start the inner async function (which
checks the not-yet-aborted combined signal and invokes the producer), and
register the promise in the in-flight map.  Returns the promise id handed
to the caller. -/
def arriveCore (s : CoordState) (k : String) (f : FetcherRef) (o : RevaliOptions) :
    CoordState × Nat :=
  -- supersession: abortOnRevalidate set and a request in flight
  let s1 :=
    if optAbortOnRevalidate o ∧ (lookupA s.inflight k).isSome then
      let sc := mgrCancel s k
      { sc with inflight := eraseA sc.inflight k }
    else s
  -- dedup join: an in-flight request's promise is returned as-is
  match lookupA s1.inflight k with
  | some rid => ({ s1 with returns := s1.returns ++ [rid] }, rid)
  | none =>
    -- cancellationManager.create(key): cancel any registered controller,
    -- then register a fresh one for this request
    let s2 := mgrCancel s1 k
    let rid := s2.reqs.length
    let s3 := { s2 with controllers := setA s2.controllers k rid }
    -- the inner async function runs synchronously up to its first await:
    -- the fresh combined signal is not aborted, so the producer is invoked
    let req : Request :=
      { key := k, fetcher := f, opts := o, attempt := 0,
        cancelled := false, phase := .calling }
    ({ s3 with
        reqs := s3.reqs ++ [req],
        invocations := s3.invocations + 1,
        inflight := setA s3.inflight k rid,
        returns := s3.returns ++ [rid] }, rid)

/-- The outer `try/catch/finally` of `fetchWithDedup` (`fetcher.ts`), run
when the inner async function settles with `out`: on success trim the
store, write a fresh entry and notify; on a non-cancellation failure
record the error on the (existing or fresh) entry and notify; on a
cancellation-class failure touch neither store nor subscribers.  The
`finally` block unconditionally removes the key from the in-flight map and
the manager (`cleanup`), whatever request those entries currently belong
to. -/
def settleOuter (s : CoordState) (rid : Nat) (r : Request)
    (out : Except JsError Nat) (now : Int) : CoordState :=
  let s' :=
    match out with
    | .ok v =>
      let st := ensureCacheSize now (optMaxCacheSize r.opts) s.store
      let st := setCacheEntry st r.key
        { data := some v, timestamp := now, error := none,
          fetcher := r.fetcher, options := r.opts }
      { s with store := st, notes := s.notes ++ [(r.key, some v, none)] }
    | .error e =>
      if isCancellationError e then s
      else
        match getCacheEntry s.store r.key with
        | some en =>
          { s with
            store := setCacheEntry s.store r.key
              { en with error := some e, timestamp := now },
            notes := s.notes ++ [(r.key, en.data, some e)] }
        | none =>
          let st := ensureCacheSize now (optMaxCacheSize r.opts) s.store
          let st := setCacheEntry st r.key
            { data := none, timestamp := now, error := some e,
              fetcher := r.fetcher, options := r.opts }
          { s with store := st, notes := s.notes ++ [(r.key, none, some e)] }
  { s' with
    inflight := eraseA s'.inflight r.key,
    controllers := eraseA s'.controllers r.key,
    reqs := s'.reqs.set rid { r with phase := .done },
    settlements := s'.settlements ++ [(rid, out)] }

/-- Settlement of an awaited producer invocation: the loop body after
`await fetcher(combinedSignal)`.  Success exits the loop (no further abort
check — even for a cancelled request).  A cancellation-class rejection is
rethrown as the engine's `CancellationError`.  Any other non-cancellation
failure either exhausts the retries (rethrown as-is) or increments
`attempt` and enters the abortable backoff wait of
`retryDelay * 2 ^ (attempt - 1)` ms — rejected immediately instead if the
combined signal is already aborted. -/
def stepProducerReturn (s : CoordState) (rid : Nat) (out : Except JsError Nat)
    (now : Int) : CoordState :=
  match s.reqs.get? rid with
  | none => s
  | some r =>
    if r.phase = .calling then
      match out with
      | .ok v => settleOuter s rid r (.ok v) now
      | .error err =>
        if isCancellationError err then
          settleOuter s rid r (.error (createCancellationError r.key (some err))) now
        else if optRetries r.opts ≤ r.attempt then
          settleOuter s rid r (.error err) now
        else if r.cancelled then
          settleOuter s rid r (.error (createCancellationError r.key none)) now
        else
          { s with
            reqs := s.reqs.set rid { r with attempt := r.attempt + 1, phase := .backoff },
            delays := s.delays ++ [optRetryDelay r.opts * 2 ^ r.attempt] }
    else s

/-- Completion of a backoff wait: the loop re-checks the combined signal
(not aborted, since an abort would have cleared the timer and moved the
request to `cancelPending`) and invokes the producer again. -/
def stepBackoffEnd (s : CoordState) (rid : Nat) : CoordState :=
  match s.reqs.get? rid with
  | none => s
  | some r =>
    if r.phase = .backoff ∧ r.cancelled = false then
      { s with
        reqs := s.reqs.set rid { r with phase := .calling },
        invocations := s.invocations + 1 }
    else s

/-- The queued rejection continuation of an aborted backoff wait: the
inner async function rejects with a `CancellationError` and the outer
catch/finally run.  A cancellation settlement never reads the clock
(neither store nor subscribers are touched), so the instant is
irrelevant and fixed at 0. -/
def stepSettleCancel (s : CoordState) (rid : Nat) : CoordState :=
  match s.reqs.get? rid with
  | none => s
  | some r =>
    if r.phase = .cancelPending then
      settleOuter s rid r (.error (createCancellationError r.key none)) 0
    else s

/-- The coordinator's atomic events. -/
inductive Event where
  | arrive (k : String) (f : FetcherRef) (o : RevaliOptions)
  | producerReturn (rid : Nat) (out : Except JsError Nat) (now : Int)
  | backoffEnd (rid : Nat)
  | settleCancel (rid : Nat)
  | cancelKey (k : String)

/-- One transition. `cancelKey` is the public `cancelRequest(key)`. -/
def step (s : CoordState) : Event → CoordState
  | .arrive k f o => (arriveCore s k f o).1
  | .producerReturn rid out now => stepProducerReturn s rid out now
  | .backoffEnd rid => stepBackoffEnd s rid
  | .settleCancel rid => stepSettleCancel s rid
  | .cancelKey k => mgrCancel s k

/-- The initial state: all maps empty. -/
def initCoord : CoordState :=
  { reqs := [], inflight := [], controllers := [], store := [], notes := [],
    invocations := 0, returns := [], settlements := [], delays := [] }

/-- Run a list of events. -/
def run (s : CoordState) (evs : List Event) : CoordState :=
  evs.foldl step s

/-- Events that never supersede an in-flight request: every `arrive`
carries `abortOnRevalidate` unset/false. -/
def NoSupersede : Event → Prop
  | .arrive _ _ o => optAbortOnRevalidate o = false
  | _ => True

/-- The registration invariant of the no-supersession fragment: every
unsettled request is the one registered in the in-flight map for its key,
and every entry of the cancellation manager's map belongs to a request
for its key. -/
def RegInv (s : CoordState) : Prop :=
  (∀ rid r, s.reqs.get? rid = some r → r.phase ≠ .done →
    lookupA s.inflight r.key = some rid) ∧
  (∀ p ∈ s.controllers, ∃ r, s.reqs.get? p.2 = some r ∧ r.key = p.1)

-- `revaliFetch` (SWR entry point) ------------------------------------------

/-- Coordinator state together with the background refresh tasks queued
via `setTimeout(..., 0)` and not yet run. -/
structure SwrState where
  coord : CoordState
  bg : List (String × FetcherRef × RevaliOptions)

/-- What a `revaliFetch` call hands back: the delegated `fetchWithDedup`
promise, or a synchronously resolved cached value. -/
inductive RFOutcome where
  | delegated (rid : Nat)
  | cached (v : Nat)
  deriving DecidableEq, Repr

/-- Embedding of `revaliFetch` (`fetcher.ts`): merge options; with no entry, an expired
entry, or an error-only entry, delegate to `fetchWithDedup`; with a fresh
entry holding data, return the data synchronously and schedule a
background `fetchWithDedup` refresh (whose failure is swallowed). -/
def revaliFetch (now : Int) (st : SwrState) (k : String) (f : FetcherRef)
    (o : RevaliOptions) : SwrState × RFOutcome :=
  let m := mergeOptions o
  let hit : Option Nat :=
    match getCacheEntry st.coord.store k with
    | none => none
    | some entry => if isExpired now entry then none else entry.data
  match hit with
  | some d => ({ st with bg := st.bg ++ [(k, f, m)] }, .cached d)
  | none =>
    let p := arriveCore st.coord k f m
    ({ coord := p.1, bg := st.bg }, .delegated p.2)

/-- Run the oldest queued background refresh (its synchronous part). -/
def runBgTask (st : SwrState) : SwrState :=
  match st.bg with
  | [] => st
  | (k, f, o) :: rest => { coord := (arriveCore st.coord k f o).1, bg := rest }

/-- The initial SWR state. -/
def swrInit : SwrState := { coord := initCoord, bg := [] }

/-- Options of end-to-end scenario A: `ttl = 5000`. -/
def uOpts : RevaliOptions := { ttl := some 5000 }

/-- End-to-end scenario A: `getOrFetch("u", ..., ttl 5000)` at `t0`
(delegates, promise id 0), the producer resolves with `1` at `t0`, then a
second `getOrFetch` at `t1`. -/
def scenarioA (t0 t1 : Int) : SwrState × RFOutcome :=
  let st1 := (revaliFetch t0 swrInit "u" (.user 0) uOpts).1
  let st2 : SwrState :=
    { coord := step st1.coord (.producerReturn 0 (.ok 1) t0), bg := st1.bg }
  revaliFetch t1 st2 "u" (.user 0) uOpts

/-- The concrete trace of the C3 counterexample: a fetch for `"k"` starts,
`cancel("k")` aborts it mid-flight, and the producer — ignoring the abort
signal — resolves with 5. -/
def c3Trace : List Event :=
  [.arrive "k" (.user 0) {}, .cancelKey "k", .producerReturn 0 (.ok 5) 50]

/-- A fetch for `"k"` cancelled while its producer invocation is pending. -/
def c3CancelTrace : List Event :=
  [.arrive "k" (.user 0) {}, .cancelKey "k"]

/-- The cache entry written by scenario A's first call. -/
def scenarioAEntry (t0 : Int) : CacheEntry :=
  { data := some 1, timestamp := t0, error := none,
    fetcher := .user 0, options := mergeOptions uOpts }

/-- The concrete trace of the C5 counterexample: a fetch for `"k"` starts,
then a second call with `abortOnRevalidate` supersedes it while the first
producer invocation is still pending. -/
def c5Trace : List Event :=
  [.arrive "k" (.user 0) {},
   .arrive "k" (.user 1) { abortOnRevalidate := some true }]

end Revali

namespace Revali

-- Supporting lemmas about the eviction scan --------------------------------

/-- The scan accumulator never increases its tracked timestamp. -/
theorem findOldestAux_le (s : Store) (acc : Option String × Int) :
    (s.foldl (fun acc p =>
      if p.2.timestamp < acc.2 then (some p.1, p.2.timestamp) else acc) acc).2 ≤ acc.2 := by
  induction s generalizing acc with
  | nil => simp
  | cons hd tl ih =>
    simp only [List.foldl_cons]
    by_cases h : hd.2.timestamp < acc.2
    · simp only [h, if_pos]
      exact le_trans (ih _) (le_of_lt h)
    · simp only [h, if_neg, not_false_iff]
      exact ih acc

/-- If every entry's timestamp is at least the scan threshold, the scan
finds nothing. -/
theorem findOldestAux_none (s : Store) (acc : Option String × Int)
    (h : ∀ p ∈ s, acc.2 ≤ p.2.timestamp) :
    (s.foldl (fun acc p =>
      if p.2.timestamp < acc.2 then (some p.1, p.2.timestamp) else acc) acc) = acc := by
  induction s generalizing acc with
  | nil => simp
  | cons hd tl ih =>
    simp only [List.foldl_cons]
    have hhd : ¬ hd.2.timestamp < acc.2 := not_lt.2 (h hd (List.mem_cons_self hd tl))
    simp only [hhd, if_neg, not_false_iff]
    exact ih acc (fun p hp => h p (List.mem_cons_of_mem hd hp))

/-- If every entry's timestamp is at least `now`, `findOldestKey` finds no
eviction candidate. -/
theorem findOldestKey_none (now : Int) (s : Store)
    (h : ∀ p ∈ s, now ≤ p.2.timestamp) : findOldestKey now s = none := by
  unfold findOldestKey
  rw [findOldestAux_none s ((none : Option String), now) (by simpa using h)]

/-- Under the same hypothesis, `evictOldestEntry` is the identity. -/
theorem evictOldestEntry_id (now : Int) (s : Store)
    (h : ∀ p ∈ s, now ≤ p.2.timestamp) : evictOldestEntry now s = s := by
  unfold evictOldestEntry
  rw [findOldestKey_none now s h]

-- C6 -----------------------------------------------------------------------

/-- C6: the claim says that on every non-empty store `evictOldestEntry`
deletes exactly one entry (the minimum-timestamp one).  The code initialises
the scan threshold to `Date.now()`, so on a non-empty store whose only
entry is timestamped at the current instant it deletes nothing: the store
is returned unchanged (size stays 1 instead of dropping to 0). -/
theorem evictOldest_misses_fresh_entry :
    storeSize [("k", freshEntry)] = 1 ∧
    evictOldestEntry 100 [("k", freshEntry)] = [("k", freshEntry)] := by
  constructor
  · rfl
  · rfl

-- C7 -----------------------------------------------------------------------

/-- C7: the claim says `ensureSize(max)` always terminates with the size
bound enforced.  At an instant at which the sole entry was just written
(`timestamp = Date.now()`), the eviction scan selects nothing, so
`while (size > 0) evictOldest()` makes no progress: for every amount of
fuel the loop is still running (`none`), i.e. the loop does not terminate
at that instant and the size bound is never established. -/
theorem ensureCacheSize_diverges_on_fresh_entry :
    ∀ fuel : Nat, ensureCacheSizeFuel fuel 100 0 [("k", freshEntry)] = none := by
  intro fuel
  induction fuel with
  | zero => rfl
  | succ n ih =>
    show ensureCacheSizeFuel (n + 1) 100 0 [("k", freshEntry)] = none
    unfold ensureCacheSizeFuel
    have hevict : evictOldestEntry 100 [("k", freshEntry)] = [("k", freshEntry)] := by rfl
    simp only [hevict]
    simpa using ih

-- C8 -----------------------------------------------------------------------

/-- C8: `isExpired` returns false when `ttl = 0` regardless of elapsed
time; for `ttl = T ≠ 0` it returns true exactly when
`now - entry.timestamp > T`; consequently an entry written at `t0` with
`ttl = T ≥ 1` is reported expired at every instant `t ≥ t0 + T + 1`. -/
theorem isExpired_spec (e : CacheEntry) (now : Int) :
    (e.options.ttl = some 0 → isExpired now e = false) ∧
    (∀ T : Nat, e.options.ttl = some T → T ≠ 0 →
      (isExpired now e = true ↔ now - e.timestamp > (T : Int))) ∧
    (∀ T : Nat, e.options.ttl = some T → 1 ≤ T → e.timestamp + T + 1 ≤ now →
      isExpired now e = true) := by
  refine ⟨?_, ?_, ?_⟩
  · intro h
    simp [isExpired, h]
  · intro T h hT
    cases T with
    | zero => exact absurd rfl hT
    | succ n =>
      simp [isExpired, h]
  · intro T h hT hnow
    cases T with
    | zero => omega
    | succ n =>
      simp only [isExpired, h]
      rw [decide_eq_true_eq]
      push_cast
      omega

/-- Witness for C8 at a concrete entry: `ttl = 7`, written at `t0 = 0`,
checked at `now = 10 ≥ 0 + 7 + 1`. -/
theorem isExpired_spec_witness :
    ttl7Entry.options.ttl = some 7 ∧ isExpired 10 ttl7Entry = true := by
  refine ⟨rfl, ?_⟩
  exact (isExpired_spec ttl7Entry 10).2.2 7 rfl (by decide) (by decide)

-- Supporting lemmas for the mutation API -----------------------------------

/-- Reading back the key just written by `setCacheEntry`. -/
theorem getCacheEntry_set_self (s : Store) (k : String) (e : CacheEntry) :
    getCacheEntry (setCacheEntry s k e) k = some e := by
  induction s with
  | nil => simp [setCacheEntry, getCacheEntry]
  | cons hd tl ih =>
    obtain ⟨k', e'⟩ := hd
    by_cases hk : k' = k
    · simp [setCacheEntry, getCacheEntry, hk]
    · simp [setCacheEntry, getCacheEntry, hk, ih]

-- C9 -----------------------------------------------------------------------

/-- C9: if the updater function passed to `mutate` throws when applied to
the previous value, the exception propagates synchronously as the result
and nothing else happens: the cache is exactly as before, no `notify` call
is made (so no subscriber runs), and no revalidation is scheduled. -/
theorem mutate_updater_throws (now : Int) (s : Store) (key : String)
    (f : Option Nat → Except JsError Nat) (b : Bool) (e : JsError)
    (h : f ((getCacheEntry s key).bind (·.data)) = .error e) :
    mutate now s key (.updater f) b =
      { result := .error e, store := s, notes := [], scheduled := none } := by
  simp [mutate, applyMutateArg, h]

/-- Witness for C9: an updater that always throws, applied on an empty
cache. -/
theorem mutate_updater_throws_witness :
    mutate 5 [] "k" (.updater fun _ => .error (.generic "boom")) true =
      { result := .error (.generic "boom"), store := [], notes := [], scheduled := none } :=
  mutate_updater_throws 5 [] "k" (fun _ => .error (.generic "boom")) true
    (.generic "boom") rfl

-- C10 ----------------------------------------------------------------------

/-- C10: on a key with no cache entry, `mutate(key, v, true)` creates the
entry (default options, constant producer resolving to the written value)
and notifies subscribers with the new value, but schedules no background
revalidation and invokes no producer; in general `mutate` schedules a
revalidation only when an entry already existed before the call. -/
theorem mutate_create_no_revalidate (now : Int) (s : Store) (key : String) (v : Nat)
    (h : getCacheEntry s key = none) :
    mutate now s key (.value v) true =
      { result := .ok v,
        store := setCacheEntry s key
          { data := some v, timestamp := now, error := none,
            fetcher := .const v, options := DEFAULT_OPTIONS },
        notes := [(key, some v, none)],
        scheduled := none } ∧
    (∀ (now₂ : Int) (s₂ : Store) (k₂ : String) (a₂ : MutateArg) (b₂ : Bool),
      ((mutate now₂ s₂ k₂ a₂ b₂).scheduled).isSome → (getCacheEntry s₂ k₂).isSome) := by
  constructor
  · simp [mutate, applyMutateArg, h, getCacheEntry_set_self]
  · intro now₂ s₂ k₂ a₂ b₂ hsch
    by_contra hnone
    rw [Option.not_isSome_iff_eq_none] at hnone
    simp only [mutate, hnone, Option.none_bind] at hsch
    rcases happ : applyMutateArg a₂ none with e | w <;> rw [happ] at hsch <;> simp at hsch

-- Supporting lemmas for the retry loop -------------------------------------

/-- Closed form of a run of the retry loop against a producer whose every
invocation rejects with a generic (non-cancellation) error. -/
theorem retryLoopAux_allFail (key : String) (producer : Nat → Except JsError Nat)
    (msg : Nat → String) (d : Nat)
    (hfail : ∀ i, producer i = .error (.generic (msg i))) :
    ∀ remaining attempt,
      retryLoopAux key producer d attempt remaining =
        { invocations := remaining + 1,
          delays := (List.range remaining).map (fun i => d * 2 ^ (attempt + i)),
          outcome := .error (.generic (msg (attempt + remaining))) } := by
  intro remaining
  induction remaining with
  | zero =>
    intro attempt
    simp [retryLoopAux, hfail attempt, isCancellationError]
  | succ n ih =>
    intro attempt
    simp only [retryLoopAux, hfail attempt, isCancellationError, Bool.false_eq_true,
      if_false, ih (attempt + 1)]
    refine congrArg₂ (fun ds oc => RetryRun.mk (n + 1 + 1) ds oc) ?_ ?_
    · rw [List.range_succ_eq_map, List.map_cons, List.map_map]
      refine congrArg₂ List.cons (by rw [Nat.add_zero]) ?_
      refine congrArg (fun f => List.map f (List.range n)) ?_
      funext i
      have h : attempt + 1 + i = attempt + Nat.succ i := by omega
      rw [Function.comp_apply, h]
    · have h : attempt + 1 + n = attempt + (n + 1) := by omega
      rw [h]

/-- Sum of the exponential backoff delays. -/
theorem retryDelays_sum (d r : Nat) :
    ((List.range r).map (fun i => d * 2 ^ i)).sum = d * (2 ^ r - 1) := by
  induction r with
  | zero => simp
  | succ n ih =>
    rw [List.range_succ, List.map_append, List.sum_append]
    simp only [List.map_cons, List.map_nil, List.sum_cons, List.sum_nil, Nat.add_zero, ih]
    have h1 : 1 ≤ 2 ^ n := Nat.one_le_pow n 2 (by decide)
    rw [pow_succ, ← Nat.mul_add]
    refine congrArg (d * ·) ?_
    omega

-- C2 -----------------------------------------------------------------------

/-- C2: against a producer whose every invocation rejects with a
non-cancellation error, the retry loop with `retries = r` invokes the
producer exactly `r + 1` times and settles with the last failure (whose
message is preserved); the backoff wait before the `i`-th retry
(`i = 1..r`, i.e. before 1-indexed attempt `i + 1`) is
`retryDelay * 2 ^ (i - 1)` ms, for a total elapsed backoff of
`retryDelay * (2 ^ r - 1)` ms.  In particular, end-to-end scenario C
(`retries = 2`, `retryDelay = 100`, producer fails twice then succeeds)
resolves successfully after exactly 3 invocations with backoff waits of
100 and 200 ms, an elapsed backoff of at least 300 ms. -/
theorem fetchRetry_spec (key : String) (producer : Nat → Except JsError Nat)
    (msg : Nat → String) (r d : Nat)
    (hfail : ∀ i, producer i = .error (.generic (msg i))) :
    ((retryLoop key producer r d).invocations = r + 1 ∧
     (retryLoop key producer r d).outcome = .error (.generic (msg r)) ∧
     (retryLoop key producer r d).delays = (List.range r).map (fun i => d * 2 ^ i) ∧
     (retryLoop key producer r d).delays.sum = d * (2 ^ r - 1)) ∧
    retryLoop "u" scenarioCProducer 2 100 =
      { invocations := 3, delays := [100, 200], outcome := .ok 42 } ∧
    300 ≤ (retryLoop "u" scenarioCProducer 2 100).delays.sum := by
  have haux := retryLoopAux_allFail key producer msg d hfail r 0
  have hloop : retryLoop key producer r d =
      { invocations := r + 1,
        delays := (List.range r).map (fun i => d * 2 ^ i),
        outcome := .error (.generic (msg r)) } := by
    rw [retryLoop, haux]
    simp
  refine ⟨⟨?_, ?_, ?_, ?_⟩, ?_, ?_⟩
  · rw [hloop]
  · rw [hloop]
  · rw [hloop]
  · rw [hloop]
    exact retryDelays_sum d r
  · rfl
  · decide

/-- Witness for C2: a producer that always rejects with message `"E"`,
`retries = 2`, `retryDelay = 100`. -/
theorem fetchRetry_spec_witness :
    (retryLoop "u" (fun _ => .error (.generic "E")) 2 100).invocations = 3 ∧
    (retryLoop "u" (fun _ => .error (.generic "E")) 2 100).outcome =
      .error (.generic "E") ∧
    (retryLoop "u" (fun _ => .error (.generic "E")) 2 100).delays.sum = 300 := by
  have h := fetchRetry_spec "u" (fun _ => .error (.generic "E")) (fun _ => "E") 2 100
    (fun _ => rfl)
  refine ⟨h.1.1, h.1.2.1, ?_⟩
  rw [h.1.2.2.2]
  decide

-- Supporting lemmas: association-list maps ----------------------------------

/-- A successful lookup is a member. -/
theorem lookupA_mem {β : Type} (l : List (String × β)) (k : String) (v : β)
    (h : lookupA l k = some v) : (k, v) ∈ l := by
  induction l with
  | nil => exact absurd h (by simp [lookupA])
  | cons hd tl ih =>
    obtain ⟨k', v'⟩ := hd
    rw [lookupA] at h
    by_cases hk : k' = k
    · rw [if_pos hk] at h
      obtain rfl := Option.some.inj h
      subst hk
      exact List.mem_cons_self _ _
    · rw [if_neg hk] at h
      exact List.mem_cons_of_mem _ (ih h)

/-- Lemma: `eraseA` only removes entries. -/
theorem mem_eraseA {β : Type} (l : List (String × β)) (k : String)
    (p : String × β) (h : p ∈ eraseA l k) : p ∈ l := by
  induction l with
  | nil => simpa [eraseA] using h
  | cons hd tl ih =>
    rw [eraseA] at h
    by_cases hk : hd.1 = k
    · rw [if_pos hk] at h
      exact List.mem_cons_of_mem _ h
    · rw [if_neg hk] at h
      rcases List.mem_cons.1 h with h' | h'
      · exact h' ▸ List.mem_cons_self _ _
      · exact List.mem_cons_of_mem _ (ih h')

/-- A member of `setA l k v` is the new binding or an old member. -/
theorem mem_setA {β : Type} (l : List (String × β)) (k : String) (v : β)
    (p : String × β) (h : p ∈ setA l k v) : p = (k, v) ∨ p ∈ l := by
  induction l with
  | nil => simpa [setA] using h
  | cons hd tl ih =>
    rw [setA] at h
    by_cases hk : hd.1 = k
    · rw [if_pos hk] at h
      rcases List.mem_cons.1 h with h' | h'
      · exact Or.inl h'
      · exact Or.inr (List.mem_cons_of_mem _ h')
    · rw [if_neg hk] at h
      rcases List.mem_cons.1 h with h' | h'
      · exact Or.inr (h' ▸ List.mem_cons_self _ _)
      · rcases ih h' with h'' | h''
        · exact Or.inl h''
        · exact Or.inr (List.mem_cons_of_mem _ h'')

/-- Reading back the binding just written. -/
theorem lookupA_set_self {β : Type} (l : List (String × β)) (k : String) (v : β) :
    lookupA (setA l k v) k = some v := by
  induction l with
  | nil => simp [setA, lookupA]
  | cons hd tl ih =>
    obtain ⟨k', v'⟩ := hd
    by_cases hk : k' = k
    · simp [setA, lookupA, hk]
    · simp [setA, lookupA, hk, ih]

/-- Writing one key does not change another key's binding. -/
theorem lookupA_set_ne {β : Type} (l : List (String × β)) (k k' : String) (v : β)
    (h : k' ≠ k) : lookupA (setA l k v) k' = lookupA l k' := by
  have hk : ¬ k = k' := fun he => h he.symm
  induction l with
  | nil => simp [setA, lookupA, hk]
  | cons hd tl ih =>
    obtain ⟨k0, v0⟩ := hd
    by_cases hk0 : k0 = k
    · subst hk0
      simp [setA, lookupA, hk]
    · simp only [setA, if_neg hk0, lookupA]
      by_cases hk' : k0 = k'
      · simp [hk']
      · simp [hk', ih]

/-- Deleting one key does not change another key's binding. -/
theorem lookupA_erase_ne {β : Type} (l : List (String × β)) (k k' : String)
    (h : k' ≠ k) : lookupA (eraseA l k) k' = lookupA l k' := by
  have hk : ¬ k = k' := fun he => h he.symm
  induction l with
  | nil => simp [eraseA]
  | cons hd tl ih =>
    obtain ⟨k0, v0⟩ := hd
    by_cases hk0 : k0 = k
    · subst hk0
      simp [eraseA, lookupA, hk]
    · simp only [eraseA, if_neg hk0, lookupA]
      by_cases hk' : k0 = k'
      · simp [hk']
      · simp [hk', ih]

/-- Lemma: `get?` succeeding bounds the index. -/
theorem get?_some_lt {α : Type} (l : List α) (i : Nat) (a : α)
    (h : l.get? i = some a) : i < l.length := by
  by_contra hc
  rw [List.get?_eq_none.2 (by omega)] at h
  exact Option.noConfusion h

-- Supporting lemmas: the cancellation manager -------------------------------

/-- Lemma: `cancel` never touches the in-flight map. -/
theorem mgrCancel_inflight (s : CoordState) (k : String) :
    (mgrCancel s k).inflight = s.inflight := by
  unfold mgrCancel
  split
  · rfl
  · split
    · rfl
    · split <;> rfl

/-- Lemma: `cancel` never changes the number of requests. -/
theorem mgrCancel_reqs_length (s : CoordState) (k : String) :
    (mgrCancel s k).reqs.length = s.reqs.length := by
  unfold mgrCancel
  split
  · rfl
  · split
    · rfl
    · split
      · rfl
      · simp [List.length_set]

/-- Lemma: `cancel` preserves the registration invariant: it can flag a request
cancelled and move it from `backoff` to `cancelPending`, but it changes no
key, no settledness, and no in-flight registration, and only removes a
manager entry. -/
theorem mgrCancel_regInv (s : CoordState) (k : String) (h : RegInv s) :
    RegInv (mgrCancel s k) := by
  unfold mgrCancel
  split
  · exact h
  next rid hc =>
    split
    · exact h
    next r hr =>
      split
      · exact h
      next hcan =>
        constructor
        · intro rid' r' hr' hp'
          dsimp only at hr' ⊢
          by_cases hrid : rid = rid'
          · subst hrid
            rw [List.get?_set_eq_of_lt _ (get?_some_lt _ _ _ hr)] at hr'
            obtain rfl := Option.some.inj hr'
            have hru : r.phase ≠ .done := by
              intro hd
              simp [hd] at hp'
            exact h.1 rid r hr hru
          · rw [List.get?_set_ne _ _ hrid] at hr'
            exact h.1 rid' r' hr' hp'
        · intro p hp
          dsimp only at hp ⊢
          have hp0 := mem_eraseA _ _ _ hp
          obtain ⟨r0, hr0, hk0⟩ := h.2 p hp0
          by_cases hrid : rid = p.2
          · rw [← hrid]
            refine ⟨_, List.get?_set_eq_of_lt _ (get?_some_lt _ _ _ hr), ?_⟩
            have hrr : r0 = r := by
              rw [← hrid, hr] at hr0
              exact (Option.some.inj hr0).symm
            show r.key = p.1
            rw [← hrr]
            exact hk0
          · refine ⟨r0, ?_, hk0⟩
            rw [List.get?_set_ne _ _ hrid]
            exact hr0

-- Supporting lemmas: settlement ---------------------------------------------

/-- The settlement's effect on the request list and the two maps, uniform
across the success / failure / cancellation branches. -/
theorem settleOuter_proj (s : CoordState) (rid : Nat) (r : Request)
    (out : Except JsError Nat) (now : Int) :
    (settleOuter s rid r out now).reqs = s.reqs.set rid { r with phase := .done } ∧
    (settleOuter s rid r out now).inflight = eraseA s.inflight r.key ∧
    (settleOuter s rid r out now).controllers = eraseA s.controllers r.key := by
  unfold settleOuter
  cases out with
  | ok v => exact ⟨rfl, rfl, rfl⟩
  | error e =>
    cases hc : isCancellationError e
    · cases hge : getCacheEntry s.store r.key <;> simp [hc, hge]
    · simp [hc]

/-- Settling an unsettled request preserves the registration invariant. -/
theorem settleOuter_regInv (s : CoordState) (rid : Nat) (r : Request)
    (out : Except JsError Nat) (now : Int)
    (hr : s.reqs.get? rid = some r) (hph : r.phase ≠ .done) (h : RegInv s) :
    RegInv (settleOuter s rid r out now) := by
  obtain ⟨hreqs, hinf, hctr⟩ := settleOuter_proj s rid r out now
  constructor
  · intro rid' r' hr' hp'
    rw [hreqs] at hr'
    rw [hinf]
    by_cases hrid : rid = rid'
    · subst hrid
      rw [List.get?_set_eq_of_lt _ (get?_some_lt _ _ _ hr)] at hr'
      obtain rfl := Option.some.inj hr'
      simp at hp'
    · rw [List.get?_set_ne _ _ hrid] at hr'
      have hreg' := h.1 rid' r' hr' hp'
      have hrk : r'.key ≠ r.key := by
        intro hkk
        have hreg := h.1 rid r hr hph
        rw [hkk] at hreg'
        exact hrid (Option.some.inj (hreg.symm.trans hreg'))
      rw [lookupA_erase_ne _ _ _ hrk]
      exact hreg'
  · intro p hp
    rw [hctr] at hp
    have hp0 := mem_eraseA _ _ _ hp
    obtain ⟨r0, hr0, hk0⟩ := h.2 p hp0
    rw [hreqs]
    by_cases hrid : rid = p.2
    · rw [← hrid]
      refine ⟨_, List.get?_set_eq_of_lt _ (get?_some_lt _ _ _ hr), ?_⟩
      have hrr : r0 = r := by
        rw [← hrid, hr] at hr0
        exact (Option.some.inj hr0).symm
      show r.key = p.1
      rw [← hrr]
      exact hk0
    · refine ⟨r0, ?_, hk0⟩
      rw [List.get?_set_ne _ _ hrid]
      exact hr0

-- Supporting lemmas for the coordinator machine ----------------------------

/-- Joining an in-flight request (`abortOnRevalidate` unset) only hands the
registered promise to the caller; nothing else changes. -/
theorem step_arrive_join (s : CoordState) (k : String) (f : FetcherRef)
    (o : RevaliOptions) (rid : Nat) (hflag : optAbortOnRevalidate o = false)
    (hlook : lookupA s.inflight k = some rid) :
    step s (.arrive k f o) = { s with returns := s.returns ++ [rid] } := by
  simp [step, arriveCore, hflag, hlook]

/-- The first `fetchWithDedup` call on the empty state creates request 0. -/
theorem step_arrive_create (k : String) (f : FetcherRef) (o : RevaliOptions) :
    step initCoord (.arrive k f o) =
      { reqs := [{ key := k, fetcher := f, opts := o, attempt := 0,
                   cancelled := false, phase := .calling }],
        inflight := [(k, 0)], controllers := [(k, 0)], store := [], notes := [],
        invocations := 1, returns := [0], settlements := [], delays := [] } := by
  simp [step, arriveCore, mgrCancel, initCoord, lookupA, setA]

/-- Any number of further non-superseding calls for an in-flight key are
pure joins. -/
theorem run_replicate_join (k : String) (f : FetcherRef) (o : RevaliOptions)
    (hflag : optAbortOnRevalidate o = false) :
    ∀ (m : Nat) (s : CoordState) (rid : Nat), lookupA s.inflight k = some rid →
      run s (List.replicate m (.arrive k f o)) =
        { s with returns := s.returns ++ List.replicate m rid } := by
  intro m
  induction m with
  | zero =>
    intro s rid h
    simp [run]
  | succ n ih =>
    intro s rid h
    rw [List.replicate_succ]
    show run (step s (.arrive k f o)) (List.replicate n (.arrive k f o)) = _
    rw [step_arrive_join s k f o rid hflag h]
    rw [ih { s with returns := s.returns ++ [rid] } rid (by simpa using h)]
    simp [List.replicate_succ]

-- Preservation of the registration invariant --------------------------------

/-- Every non-superseding event preserves the registration invariant. -/
theorem step_regInv (s : CoordState) (e : Event) (hns : NoSupersede e)
    (h : RegInv s) : RegInv (step s e) := by
  cases e with
  | cancelKey k => exact mgrCancel_regInv s k h
  | settleCancel rid =>
    show RegInv (stepSettleCancel s rid)
    unfold stepSettleCancel
    split
    · exact h
    next r hr =>
      split
      next hph => exact settleOuter_regInv s rid r _ 0 hr (by rw [hph]; simp) h
      · exact h
  | backoffEnd rid =>
    show RegInv (stepBackoffEnd s rid)
    unfold stepBackoffEnd
    split
    · exact h
    next r hr =>
      split
      next hcond =>
        constructor
        · intro rid' r' hr' hp'
          by_cases hrid : rid = rid'
          · subst hrid
            rw [List.get?_set_eq_of_lt _ (get?_some_lt _ _ _ hr)] at hr'
            obtain rfl := Option.some.inj hr'
            exact h.1 rid r hr (by rw [hcond.1]; simp)
          · rw [List.get?_set_ne _ _ hrid] at hr'
            exact h.1 rid' r' hr' hp'
        · intro p hp
          obtain ⟨r0, hr0, hk0⟩ := h.2 p hp
          by_cases hrid : rid = p.2
          · rw [← hrid]
            refine ⟨_, List.get?_set_eq_of_lt _ (get?_some_lt _ _ _ hr), ?_⟩
            have hrr : r0 = r := by
              rw [← hrid, hr] at hr0
              exact (Option.some.inj hr0).symm
            show r.key = p.1
            rw [← hrr]
            exact hk0
          · refine ⟨r0, ?_, hk0⟩
            rw [List.get?_set_ne _ _ hrid]
            exact hr0
      · exact h
  | producerReturn rid out now =>
    show RegInv (stepProducerReturn s rid out now)
    unfold stepProducerReturn
    split
    · exact h
    next r hr =>
      split
      next hph =>
        have hnd : r.phase ≠ .done := by rw [hph]; simp
        split
        · exact settleOuter_regInv s rid r _ now hr hnd h
        · split
          · exact settleOuter_regInv s rid r _ now hr hnd h
          · split
            · exact settleOuter_regInv s rid r _ now hr hnd h
            · split
              · exact settleOuter_regInv s rid r _ now hr hnd h
              · constructor
                · intro rid' r' hr' hp'
                  by_cases hrid : rid = rid'
                  · subst hrid
                    rw [List.get?_set_eq_of_lt _ (get?_some_lt _ _ _ hr)] at hr'
                    obtain rfl := Option.some.inj hr'
                    exact h.1 rid r hr hnd
                  · rw [List.get?_set_ne _ _ hrid] at hr'
                    exact h.1 rid' r' hr' hp'
                · intro p hp
                  obtain ⟨r0, hr0, hk0⟩ := h.2 p hp
                  by_cases hrid : rid = p.2
                  · rw [← hrid]
                    refine ⟨_, List.get?_set_eq_of_lt _ (get?_some_lt _ _ _ hr), ?_⟩
                    have hrr : r0 = r := by
                      rw [← hrid, hr] at hr0
                      exact (Option.some.inj hr0).symm
                    show r.key = p.1
                    rw [← hrr]
                    exact hk0
                  · refine ⟨r0, ?_, hk0⟩
                    rw [List.get?_set_ne _ _ hrid]
                    exact hr0
      · exact h
  | arrive k f o =>
    have hflag : optAbortOnRevalidate o = false := hns
    cases hlk : lookupA s.inflight k with
    | some rid =>
      rw [step_arrive_join s k f o rid hflag hlk]
      exact h
    | none =>
      have hs2 := mgrCancel_regInv s k h
      have hinf2 : (mgrCancel s k).inflight = s.inflight := mgrCancel_inflight s k
      have hstep : step s (.arrive k f o) =
          { mgrCancel s k with
            controllers := setA (mgrCancel s k).controllers k (mgrCancel s k).reqs.length,
            reqs := (mgrCancel s k).reqs ++
              [{ key := k, fetcher := f, opts := o, attempt := 0,
                 cancelled := false, phase := .calling }],
            invocations := (mgrCancel s k).invocations + 1,
            inflight := setA (mgrCancel s k).inflight k (mgrCancel s k).reqs.length,
            returns := (mgrCancel s k).returns ++ [(mgrCancel s k).reqs.length] } := by
        simp [step, arriveCore, hflag, hlk]
      rw [hstep]
      constructor
      · intro rid' r' hr' hp'
        dsimp only at hr' hp' ⊢
        have hlt : rid' < (mgrCancel s k).reqs.length + 1 := by
          have hb := get?_some_lt _ _ _ hr'
          simpa [List.length_append] using hb
        by_cases hcase : rid' = (mgrCancel s k).reqs.length
        · subst hcase
          rw [List.get?_concat_length] at hr'
          obtain rfl := Option.some.inj hr'
          exact lookupA_set_self _ _ _
        · have hlt' : rid' < (mgrCancel s k).reqs.length := by omega
          rw [List.get?_append hlt'] at hr'
          have hreg := hs2.1 rid' r' hr' hp'
          have hkne : r'.key ≠ k := by
            intro hkk
            rw [hkk, hinf2, hlk] at hreg
            exact Option.noConfusion hreg
          rw [lookupA_set_ne _ _ _ _ hkne]
          exact hreg
      · intro p hp
        dsimp only at hp ⊢
        rcases mem_setA _ _ _ _ hp with hpe | hpm
        · subst hpe
          exact ⟨_, List.get?_concat_length _ _, rfl⟩
        · obtain ⟨r0, hr0, hk0⟩ := hs2.2 p hpm
          refine ⟨r0, ?_, hk0⟩
          rw [List.get?_append (get?_some_lt _ _ _ hr0)]
          exact hr0

/-- The empty state satisfies the registration invariant. -/
theorem regInv_init : RegInv initCoord := by
  constructor
  · intro rid r hr
    simp [initCoord] at hr
  · intro p hp
    simp [initCoord] at hp

/-- The registration invariant holds along every non-superseding trace. -/
theorem regInv_run_aux (evs : List Event) :
    ∀ s : CoordState, RegInv s → (∀ e ∈ evs, NoSupersede e) → RegInv (run s evs) := by
  induction evs with
  | nil => intro s h _; exact h
  | cons e tl ih =>
    intro s h hns
    show RegInv (run (step s e) tl)
    exact ih (step s e) (step_regInv s e (hns e (List.mem_cons_self _ _)) h)
      (fun e' he' => hns e' (List.mem_cons_of_mem _ he'))

-- C5 -----------------------------------------------------------------------

/-- C5 (amended): in every reachable interleaving of `fetchNow` calls,
producer settlements, backoff completions and cancellations in which no
call supersedes an in-flight request (no `arrive` carries
`abortOnRevalidate`), at most one producer invocation per key is
outstanding at any instant: any two requests for the same key whose
producer call is pending (`calling`) are the same request, enforced by the
in-flight map.  (With supersession the original claim fails — see the
counterexample — because the superseded producer invocation remains
pending next to the new one.) -/
theorem single_outstanding_no_supersede (evs : List Event)
    (hns : ∀ e ∈ evs, NoSupersede e) (i j : Nat) (ri rj : Request)
    (hi : (run initCoord evs).reqs.get? i = some ri)
    (hj : (run initCoord evs).reqs.get? j = some rj)
    (hk : ri.key = rj.key)
    (hpi : ri.phase = .calling) (hpj : rj.phase = .calling) : i = j := by
  have h := regInv_run_aux evs initCoord regInv_init hns
  have h1 := h.1 i ri hi (by rw [hpi]; simp)
  have h2 := h.1 j rj hj (by rw [hpj]; simp)
  rw [hk] at h1
  exact Option.some.inj (h1.symm.trans h2)

/-- Witness for C5 (amended): the one-arrival trace, with `i = j = 0`. -/
theorem single_outstanding_no_supersede_witness : (0 : Nat) = 0 :=
  single_outstanding_no_supersede [.arrive "k" (.user 0) {}]
    (by intro e he
        rw [List.mem_singleton] at he
        subst he
        exact rfl)
    0 0
    { key := "k", fetcher := .user 0, opts := {}, attempt := 0,
      cancelled := false, phase := .calling }
    { key := "k", fetcher := .user 0, opts := {}, attempt := 0,
      cancelled := false, phase := .calling }
    rfl rfl rfl rfl rfl

-- C1 -----------------------------------------------------------------------

/-- C1: `N ≥ 1` concurrent `fetchNow` calls for the same key (with
`abortOnRevalidate` unset) invoke the producer exactly once; every call is
handed the same promise (id 0), and when that producer invocation resolves
with `v` the one shared promise settles with `v` — so all `N` callers
observe the identical value. -/
theorem fetchWithDedup_dedup (k : String) (f : FetcherRef) (o : RevaliOptions)
    (N : Nat) (hN : 1 ≤ N) (hflag : optAbortOnRevalidate o = false)
    (v : Nat) (t : Int) :
    (run initCoord (List.replicate N (.arrive k f o))).invocations = 1 ∧
    (run initCoord (List.replicate N (.arrive k f o))).returns = List.replicate N 0 ∧
    (run initCoord (List.replicate N (.arrive k f o) ++
        [.producerReturn 0 (.ok v) t])).invocations = 1 ∧
    (run initCoord (List.replicate N (.arrive k f o) ++
        [.producerReturn 0 (.ok v) t])).settlements = [(0, Except.ok v)] := by
  obtain ⟨m, rfl⟩ : ∃ m, N = m + 1 := ⟨N - 1, by omega⟩
  have hrun : run initCoord (List.replicate (m + 1) (.arrive k f o)) =
      { reqs := [{ key := k, fetcher := f, opts := o, attempt := 0,
                   cancelled := false, phase := .calling }],
        inflight := [(k, 0)], controllers := [(k, 0)], store := [], notes := [],
        invocations := 1, returns := List.replicate (m + 1) 0,
        settlements := [], delays := [] } := by
    rw [List.replicate_succ]
    show run (step initCoord (.arrive k f o)) (List.replicate m (.arrive k f o)) = _
    rw [step_arrive_create k f o,
        run_replicate_join k f o hflag m _ 0 (by simp [lookupA])]
    simp [List.replicate_succ]
  have happ : run initCoord (List.replicate (m + 1) (.arrive k f o) ++
      [.producerReturn 0 (.ok v) t]) =
      step (run initCoord (List.replicate (m + 1) (.arrive k f o)))
        (.producerReturn 0 (.ok v) t) := by
    simp [run, List.foldl_append]
  refine ⟨by rw [hrun], by rw [hrun], ?_, ?_⟩ <;>
    rw [happ, hrun] <;>
    simp [step, stepProducerReturn, settleOuter, List.get?]

/-- Witness for C1: three calls for key `"k"` with empty options, producer
resolving with 7. -/
theorem fetchWithDedup_dedup_witness :
    (run initCoord (List.replicate 3 (.arrive "k" (.user 0) {}))).invocations = 1 ∧
    (run initCoord (List.replicate 3 (.arrive "k" (.user 0) {}))).returns =
      List.replicate 3 0 ∧
    (run initCoord (List.replicate 3 (.arrive "k" (.user 0) {}) ++
        [.producerReturn 0 (.ok 7) 9])).invocations = 1 ∧
    (run initCoord (List.replicate 3 (.arrive "k" (.user 0) {}) ++
        [.producerReturn 0 (.ok 7) 9])).settlements = [(0, Except.ok 7)] :=
  fetchWithDedup_dedup "k" (.user 0) {} 3 (by decide) rfl 7 9

-- C3 counterexample ---------------------------------------------------------

/-- C3 counterexample: the claim says a cancelled in-flight fetch never
creates a cache entry and never notifies, surfacing only as a rejection.
In `c3Trace` the request for `"k"` is cancelled mid-flight (its
`cancelled` flag is set) but the producer, ignoring the abort signal,
resolves with 5 — and the engine, which re-checks the signal only before
an invocation, writes the cache entry, notifies the subscribers of `"k"`,
and resolves (not rejects) the caller's promise. -/
theorem cancellation_visible_counterexample :
    ((run initCoord c3Trace).reqs.get? 0).map Request.cancelled = some true ∧
    (run initCoord c3Trace).store =
      [("k", { data := some 5, timestamp := 50, error := none,
               fetcher := .user 0, options := {} })] ∧
    (run initCoord c3Trace).notes = [("k", some 5, none)] ∧
    (run initCoord c3Trace).settlements = [(0, Except.ok 5)] :=
  ⟨rfl, rfl, rfl, rfl⟩

-- C5 counterexample ---------------------------------------------------------

/-- C5 counterexample: the claim says that even under supersession at most
one producer invocation per key is outstanding at any instant.  In
`c5Trace` the second call (with `abortOnRevalidate`) cancels and
deregisters the first request, but the first producer invocation is still
pending when the second one is made: two producer invocations for `"k"`
are outstanding at once. -/
theorem single_outstanding_counterexample :
    ((run initCoord c5Trace).reqs.filter
      (fun r => decide (r.key = "k") && decide (r.phase = ReqPhase.calling))).length = 2 ∧
    (run initCoord c5Trace).invocations = 2 :=
  ⟨rfl, rfl⟩

-- C4 counterexample ---------------------------------------------------------

/-- C4 counterexample: the claim says the producer is invoked exactly once
in total across the two `getOrFetch` calls.  The second (fresh-hit) call
returns the cached value but also schedules a background
stale-while-revalidate refresh; once the event loop runs that task the
producer has been invoked a second time. -/
theorem swr_second_invocation_counterexample :
    (scenarioA 0 3000).2 = RFOutcome.cached 1 ∧
    (scenarioA 0 3000).1.coord.invocations = 1 ∧
    (runBgTask (scenarioA 0 3000).1).coord.invocations = 2 :=
  ⟨rfl, rfl, rfl⟩

-- C3 (amended) --------------------------------------------------------------

/-- The engine's own `CancellationError` is cancellation-class. -/
theorem isCancellationError_create (k : String) (oe : Option JsError) :
    isCancellationError (createCancellationError k oe) = true := by
  cases oe with
  | none => rfl
  | some e => cases e <;> rfl

/-- A cancellation-class settlement touches neither the store nor the
notification log; it only rejects the caller's promise and cleans up. -/
theorem settleOuter_cancel_proj (s : CoordState) (rid : Nat) (r : Request)
    (e : JsError) (now : Int) (hc : isCancellationError e = true) :
    (settleOuter s rid r (.error e) now).store = s.store ∧
    (settleOuter s rid r (.error e) now).notes = s.notes ∧
    (settleOuter s rid r (.error e) now).settlements =
      s.settlements ++ [(rid, .error e)] := by
  unfold settleOuter
  simp [hc]

/-- C3 (amended): cancelling an in-flight fetch is invisible to the cache
and to subscribers provided the abort is detected by the engine: when the
pending producer invocation rejects with a cancellation-class error (the
behaviour of a signal-honouring producer), and likewise when the abort
lands during the backoff wait, the settlement leaves the store and the
notification log untouched and surfaces only as the caller's promise
rejecting with a `CancellationError`.  (A producer that ignores the abort
and resolves — or rejects with a non-cancellation error on its final
attempt — leads to a normal cache write and notification instead: see the
counterexample.) -/
theorem cancellation_invisible (s : CoordState) (rid : Nat) (r : Request)
    (e : JsError) (now : Int) :
    (s.reqs.get? rid = some r → r.phase = .calling → isCancellationError e = true →
      (stepProducerReturn s rid (.error e) now).store = s.store ∧
      (stepProducerReturn s rid (.error e) now).notes = s.notes ∧
      (stepProducerReturn s rid (.error e) now).settlements =
        s.settlements ++ [(rid, .error (createCancellationError r.key (some e)))]) ∧
    (s.reqs.get? rid = some r → r.phase = .cancelPending →
      (stepSettleCancel s rid).store = s.store ∧
      (stepSettleCancel s rid).notes = s.notes ∧
      (stepSettleCancel s rid).settlements =
        s.settlements ++ [(rid, .error (createCancellationError r.key none))]) := by
  constructor
  · intro hr hph hc
    have hcc := isCancellationError_create r.key (some e)
    have hproj := settleOuter_cancel_proj s rid r
      (createCancellationError r.key (some e)) now hcc
    have hred : stepProducerReturn s rid (.error e) now =
        settleOuter s rid r (.error (createCancellationError r.key (some e))) now := by
      unfold stepProducerReturn
      rw [hr]
      simp [hph, hc]
    rw [hred]
    exact ⟨hproj.1, hproj.2.1, hproj.2.2⟩
  · intro hr hph
    have hcc := isCancellationError_create r.key none
    have hproj := settleOuter_cancel_proj s rid r
      (createCancellationError r.key none) 0 hcc
    have hred : stepSettleCancel s rid =
        settleOuter s rid r (.error (createCancellationError r.key none)) 0 := by
      unfold stepSettleCancel
      rw [hr]
      simp [hph]
    rw [hred]
    exact ⟨hproj.1, hproj.2.1, hproj.2.2⟩

/-- Witness for C3 (amended): the request of `c3CancelTrace` is cancelled
mid-flight and its producer then rejects with the platform abort error;
the store and the notification log are untouched. -/
theorem cancellation_invisible_witness :
    (run initCoord c3CancelTrace).reqs.get? 0 =
      some { key := "k", fetcher := .user 0, opts := {}, attempt := 0,
             cancelled := true, phase := .calling } ∧
    (stepProducerReturn (run initCoord c3CancelTrace) 0
        (.error (.abortError "aborted")) 7).store =
      (run initCoord c3CancelTrace).store ∧
    (stepProducerReturn (run initCoord c3CancelTrace) 0
        (.error (.abortError "aborted")) 7).notes =
      (run initCoord c3CancelTrace).notes := by
  refine ⟨rfl, ?_, ?_⟩
  · exact ((cancellation_invisible (run initCoord c3CancelTrace) 0
      { key := "k", fetcher := .user 0, opts := {}, attempt := 0,
        cancelled := true, phase := .calling }
      (.abortError "aborted") 7).1 rfl rfl rfl).1
  · exact ((cancellation_invisible (run initCoord c3CancelTrace) 0
      { key := "k", fetcher := .user 0, opts := {}, attempt := 0,
        cancelled := true, phase := .calling }
      (.abortError "aborted") 7).1 rfl rfl rfl).2.1

-- C4 (amended) --------------------------------------------------------------

/-- C4 (amended): `getOrFetch("u", producerReturning 1, ttl 5000)` twice —
the first call delegates to `fetchWithDedup` (one producer invocation) and
its promise resolves with the produced value; the second call, issued at
any `t1 ≤ t0 + 5000`, returns the cached value synchronously with no
second producer invocation having occurred at that point, but it also
schedules a background stale-while-revalidate refresh (which invokes the
producer again once the event loop runs it: see the counterexample, so
"exactly once in total" holds only up to the second call's return). -/
theorem swr_scenarioA_spec (t0 t1 : Int) (h : t1 ≤ t0 + 5000) :
    (revaliFetch t0 swrInit "u" (.user 0) uOpts).2 = .delegated 0 ∧
    (step (revaliFetch t0 swrInit "u" (.user 0) uOpts).1.coord
        (.producerReturn 0 (.ok 1) t0)).invocations = 1 ∧
    (step (revaliFetch t0 swrInit "u" (.user 0) uOpts).1.coord
        (.producerReturn 0 (.ok 1) t0)).settlements = [(0, Except.ok 1)] ∧
    (scenarioA t0 t1).2 = .cached 1 ∧
    (scenarioA t0 t1).1.coord.invocations = 1 ∧
    (scenarioA t0 t1).1.bg = [("u", .user 0, mergeOptions uOpts)] := by
  have hmid : scenarioA t0 t1 = revaliFetch t1
      { coord := { reqs := [{ key := "u", fetcher := .user 0,
                              opts := mergeOptions uOpts, attempt := 0,
                              cancelled := false, phase := .done }],
                   inflight := [], controllers := [],
                   store := [("u", scenarioAEntry t0)],
                   notes := [("u", some 1, none)], invocations := 1,
                   returns := [0], settlements := [(0, Except.ok 1)],
                   delays := [] }, bg := [] }
      "u" (.user 0) uOpts := rfl
  have hexp : isExpired t1 (scenarioAEntry t0) = false := by
    simp only [isExpired, scenarioAEntry]
    simp only [mergeOptions, uOpts, optTtl]
    simp
    omega
  simp only [scenarioAEntry] at hexp
  refine ⟨rfl, rfl, rfl, ?_, ?_, ?_⟩ <;>
    rw [hmid] <;>
    simp [revaliFetch, getCacheEntry, scenarioAEntry, hexp]

/-- Witness for C4 (amended): `t0 = 0`, `t1 = 3000 ≤ 0 + 5000`. -/
theorem swr_scenarioA_spec_witness :
    (scenarioA 0 3000).2 = .cached 1 ∧
    (scenarioA 0 3000).1.bg = [("u", .user 0, mergeOptions uOpts)] := by
  have h := swr_scenarioA_spec 0 3000 (by decide)
  exact ⟨h.2.2.2.1, h.2.2.2.2.2⟩

/-- Witness for C10: writing value 3 to key `"k"` of the empty cache. -/
theorem mutate_create_no_revalidate_witness :
    getCacheEntry ([] : Store) "k" = none ∧
    mutate 5 [] "k" (.value 3) true =
      { result := .ok 3,
        store := [("k", { data := some 3, timestamp := 5, error := none,
                          fetcher := .const 3, options := DEFAULT_OPTIONS })],
        notes := [("k", some 3, none)],
        scheduled := none } := by
  refine ⟨rfl, ?_⟩
  have h := (mutate_create_no_revalidate 5 [] "k" 3 rfl).1
  simpa [setCacheEntry] using h

end Revali
